import Mathlib

/-!
Shallow embedding of the loan-origination analysis core
(`data_processor.py`, `statistics.py`, and the process-data handler of
`app.py`), together with theorems settling the specification claims.

Strings are modelled as lists of characters; tabular cell values as a
four-way sum (missing, string, rational number, parsed timestamp in
seconds); fallible operations return `Except`.
-/

/-- Strings of the embedded program, as plain character lists. -/
abbrev Str := List Char

/-- Lower-casing of an embedded string (Python `str.lower`); the
vocabularies involved are ASCII, for which `Char.toLower` agrees. -/
def lowerStr (s : Str) : Str := s.map Char.toLower

/-- `isPrefixOfL p s`: the list `p` is a prefix of `s` (executable). -/
def isPrefixOfL : Str → Str → Bool
  | [], _ => true
  | _ :: _, [] => false
  | a :: as, b :: bs => a = b && isPrefixOfL as bs

/-- `isInfixOfL p s`: `p` occurs contiguously inside `s`
(Python's `p in s` on strings, executable). -/
def isInfixOfL : Str → Str → Bool
  | p, [] => isPrefixOfL p []
  | p, s@(_ :: rest) => isPrefixOfL p s || isInfixOfL p rest

/-- Tabular cell values: missing marker, string, numeric, or an
already-parsed timestamp measured in seconds since the epoch. -/
inductive Cell where
  | null : Cell
  | str : Str → Cell
  | num : ℚ → Cell
  | date : Int → Cell
deriving DecidableEq

/-- Approval vocabulary (`DataProcessor.approval_terms`). -/
def approval_terms : List Str :=
  ["approved".data, "accept".data, "funded".data, "complete".data]

/-- Rejection vocabulary (`DataProcessor.rejection_terms`). -/
def rejection_terms : List Str :=
  ["rejected".data, "denied".data, "declined".data, "refuse".data]

/-- `DataProcessor._standardize_status`: a missing value is `unknown`;
otherwise the value is stringified and lower-cased and the approval
vocabulary is checked before the rejection vocabulary by substring
matching; a value matching neither is `other`.  The stringification of a
numeric or timestamp cell contains no vocabulary term, so those classify
as `other`. -/
def standardize_status (status : Cell) : Str :=
  match status with
  | Cell.null => "unknown".data
  | Cell.str s =>
    let sl := lowerStr s
    if approval_terms.any (fun t => isInfixOfL t sl) then "approved".data
    else if rejection_terms.any (fun t => isInfixOfL t sl) then "rejected".data
    else "other".data
  | Cell.num _ => "other".data
  | Cell.date _ => "other".data

/-- Days since 1970-01-01 of the civil date (y, m, d), by the standard
era-based civil-calendar conversion. -/
def daysFromCivil (y m d : Int) : Int :=
  let y2 := if m ≤ 2 then y - 1 else y
  let era := Int.fdiv y2 400
  let yoe := y2 - era * 400
  let doy := Int.fdiv (153 * (m + (if 2 < m then -3 else 9)) + 2) 5 + d - 1
  let doe := yoe * 365 + Int.fdiv yoe 4 - Int.fdiv yoe 100 + doy
  era * 146097 + doe - 719468

/-- Civil date (y, m, d) of a day count since 1970-01-01 (inverse of
`daysFromCivil`). -/
def civilFromDays (z0 : Int) : Int × Int × Int :=
  let z := z0 + 719468
  let era := Int.fdiv z 146097
  let doe := z - era * 146097
  let yoe := Int.fdiv (doe - Int.fdiv doe 1460 + Int.fdiv doe 36524 - Int.fdiv doe 146096) 365
  let y := yoe + era * 400
  let doy := doe - (365 * yoe + Int.fdiv yoe 4 - Int.fdiv yoe 100)
  let mp := Int.fdiv (5 * doy + 2) 153
  let d := doy - Int.fdiv (153 * mp + 2) 5 + 1
  let m := mp + (if mp < 10 then 3 else -9)
  (if m ≤ 2 then y + 1 else y, m, d)

/-- Split a character list on a separator character. -/
def splitOnChar (c : Char) : Str → List Str
  | [] => [[]]
  | a :: as =>
    let r := splitOnChar c as
    if a = c then [] :: r
    else
      match r with
      | [] => [[a]]
      | g :: gs => (a :: g) :: gs

/-- All characters are decimal digits and the list is non-empty. -/
def isDigitL (s : Str) : Bool := s.all (fun c => c.isDigit) && !s.isEmpty

/-- Decimal value of a digit list. -/
def natOfDigits (s : Str) : Nat := s.foldl (fun acc c => acc * 10 + (c.toNat - 48)) 0

/-- String-to-date parsing.  The source tries sixteen `strptime`
templates and then the lenient `pandas.to_datetime`; the embedding
implements the ISO `%Y-%m-%d` template (the first template tried) and
maps other strings to missing.  Which string forms parse does not enter
any verified property; what matters downstream is only
parsed-timestamp-or-missing. -/
def parseDateStr (s : Str) : Option Int :=
  match splitOnChar (Char.ofNat 45) s with
  | [y, m, d] =>
    if isDigitL y && isDigitL m && isDigitL d then
      let mi : Int := (natOfDigits m : Int)
      let di : Int := (natOfDigits d : Int)
      if 1 ≤ mi && mi ≤ 12 && 1 ≤ di && di ≤ 31 then
        some (daysFromCivil (natOfDigits y : Int) mi di * 86400)
      else none
    else none
  | _ => none

/-- `DataProcessor._parse_date`: missing stays missing, an
already-parsed timestamp is returned as is, a string goes through the
format templates, and a bare number is interpreted by
`pandas.to_datetime` as nanoseconds since the epoch. -/
def parse_date : Cell → Option Int
  | Cell.null => none
  | Cell.date t => some t
  | Cell.str s => parseDateStr s
  | Cell.num q => some (Int.fdiv ⌊q⌋ 1000000000)

/-- A row of a table: an association of column names to cells. -/
abbrev Row := List (Str × Cell)

/-- The raw input table (a pandas DataFrame: named columns plus rows). -/
structure RawTable where
  cols : List Str
  rows : List Row
deriving DecidableEq

/-- Cell of a row at a column, when the column is present. -/
def lookupCell (row : Row) (c : Str) : Option Cell :=
  match row with
  | [] => none
  | p :: ps => if p.1 = c then some p.2 else lookupCell ps c

/-- Cell of a row at a column, missing marker when absent. -/
def getCellD (row : Row) (c : Str) : Cell := (lookupCell row c).getD Cell.null

/-- The column mapping from canonical field names to source column
names; `none` is unmapped (absent, `None`, or the empty selection,
all of which the source's `if col_name` filter drops). -/
structure ColumnMapping where
  application_id : Option Str
  application_date : Option Str
  decision_date : Option Str
  status : Option Str
  loan_amount : Option Str
  income : Option Str
  credit_score : Option Str
  rejection_reason : Option Str
deriving DecidableEq

def appIdCol : Str := "application_id".data
def appDateCol : Str := "application_date".data
def decDateCol : Str := "decision_date".data
def statusCol : Str := "status".data
def loanCol : Str := "loan_amount".data
def incomeCol : Str := "income".data
def creditCol : Str := "credit_score".data
def reasonCol : Str := "rejection_reason".data
def statusStdCol : Str := "status_standardized".data
def ptimeCol : Str := "processing_time_days".data
def monthCol : Str := "application_month".data
def yearCol : Str := "application_year".data
def ymCol : Str := "application_yearmonth".data

/-- The mapped (canonical name, source column) pairs, in the order the
source's mapping dictionary carries them. -/
def ColumnMapping.mappedList (m : ColumnMapping) : List (Str × Str) :=
  ([(appIdCol, m.application_id), (appDateCol, m.application_date),
    (decDateCol, m.decision_date), (statusCol, m.status),
    (loanCol, m.loan_amount), (incomeCol, m.income),
    (creditCol, m.credit_score), (reasonCol, m.rejection_reason)]).filterMap
    (fun p => p.2.map (fun c => (p.1, c)))

/-- Date-column conversion: a parsed cell, or the missing marker. -/
def parseCellToCell (c : Cell) : Cell :=
  match parse_date c with
  | some t => Cell.date t
  | none => Cell.null

/-- Processing time in days from the two parsed date cells: the
difference in seconds over 86400, with negative and greater-than-365
values degraded to missing, and missing when either date is missing. -/
def processing_time_cell (app dec : Cell) : Cell :=
  match app, dec with
  | Cell.date a, Cell.date d =>
    let days : ℚ := ((d : ℚ) - (a : ℚ)) / 86400
    if days < 0 then Cell.null
    else if days > 365 then Cell.null
    else Cell.num days
  | _, _ => Cell.null

def natRepr (n : Nat) : Str := (Nat.repr n).data

def intRepr (i : Int) : Str :=
  if i < 0 then Char.ofNat 45 :: natRepr i.natAbs else natRepr i.toNat

/-- Zero-padded two-digit rendering of a month number. -/
def pad2 (i : Int) : Str :=
  if 0 ≤ i && i < 10 then Char.ofNat 48 :: intRepr i else intRepr i

def monthOf (t : Int) : Int := (civilFromDays (Int.fdiv t 86400)).2.1
def yearOf (t : Int) : Int := (civilFromDays (Int.fdiv t 86400)).1

/-- `strftime` with the `%Y-%m` template. -/
def yearmonthOf (t : Int) : Str :=
  intRepr (yearOf t) ++ Char.ofNat 45 :: pad2 (monthOf t)

/-- One canonical row built from one raw row: the mapped columns under
their canonical names, date columns parsed, then the derived
`status_standardized`, `processing_time_days` and period-key columns,
each present exactly when its input columns are mapped. -/
def buildRow (m : ColumnMapping) (row : Row) : Row :=
  let base := m.mappedList.map (fun p =>
    if p.1 = appDateCol ∨ p.1 = decDateCol then (p.1, parseCellToCell (getCellD row p.2))
    else (p.1, getCellD row p.2))
  let withStatus := base ++
    (match m.status with
     | some c => [(statusStdCol, Cell.str (standardize_status (getCellD row c)))]
     | none => [])
  let withPt := withStatus ++
    (match m.application_date, m.decision_date with
     | some ca, some cd =>
       [(ptimeCol, processing_time_cell (parseCellToCell (getCellD row ca))
          (parseCellToCell (getCellD row cd)))]
     | _, _ => [])
  withPt ++
    (match m.application_date with
     | some ca =>
       match parse_date (getCellD row ca) with
       | some t =>
         [(monthCol, Cell.num (monthOf t)), (yearCol, Cell.num (yearOf t)),
          (ymCol, Cell.str (yearmonthOf t))]
       | none => [(monthCol, Cell.null), (yearCol, Cell.null), (ymCol, Cell.null)]
     | none => [])

/-- The columns of the canonical view produced for a mapping. -/
def canonicalCols (m : ColumnMapping) : List Str :=
  m.mappedList.map (fun p => p.1)
  ++ (if m.status.isSome then [statusStdCol] else [])
  ++ (if m.application_date.isSome && m.decision_date.isSome then [ptimeCol] else [])
  ++ (if m.application_date.isSome then [monthCol, yearCol, ymCol] else [])

/-- The canonical view: fixed columns plus one row per input row. -/
structure CanonicalTable where
  cols : List Str
  rows : List Row
deriving DecidableEq

/-- A converted date column is datetimelike exactly when at least one
of its cells parses: pandas then infers `datetime64` and fills the rest
with `NaT`, while a column in which nothing parses (all missing or
unparseable, or no rows at all) keeps its object dtype. -/
def dateColParsed (raw : RawTable) (ca : Str) : Bool :=
  raw.rows.any (fun row => (parse_date (getCellD row ca)).isSome)

/-- Whether the date columns `preprocess_data` feeds to the `.dt`
accessor are datetimelike.  With both date fields mapped, the
processing-time subtraction and its `.dt.total_seconds()` need both
columns datetimelike; with only `application_date` mapped, the
period-derivation block needs that one column; a `decision_date`
column mapped alone is converted but never reaches `.dt`. -/
def dateColsOk (raw : RawTable) (m : ColumnMapping) : Bool :=
  match m.application_date, m.decision_date with
  | some ca, some cd => dateColParsed raw ca && dateColParsed raw cd
  | some ca, none => dateColParsed raw ca
  | none, _ => true

/-- The exception family raised when a used date column never became
datetimelike: `AttributeError` from the `.dt` accessor, or the
`TypeError` of subtracting an object column; the embedding carries the
one error value for all of them. -/
def dtAccessorErrorMsg : Str :=
  "Can only use .dt accessor with datetimelike values".data

/-- `DataProcessor.preprocess_data` as a pure function of the raw table
and the mapping.  It performs no required-field check: it copies
whichever columns are mapped, converts dates, derives the standardized
status and processing time, and returns the view.  Its failures are
unrelated to required fields: the `KeyError` pandas raises when a
mapped source column is absent from the raw table, and the
`.dt`-accessor error when a date column it derives from has no
parseable value at all. -/
def preprocess_data (raw : RawTable) (m : ColumnMapping) : Except Str CanonicalTable :=
  match m.mappedList.find? (fun p => !raw.cols.contains p.2) with
  | some p => Except.error ("KeyError: ".data ++ p.2)
  | none =>
    if dateColsOk raw m then Except.ok ⟨canonicalCols m, raw.rows.map (buildRow m)⟩
    else Except.error dtAccessorErrorMsg

/-- The processor: raw data, mapping, and the canonical view once
`preprocess_data` has stored it (`self.data`, initially `None`). -/
structure DataProcessor where
  raw_data : RawTable
  column_mapping : ColumnMapping
  data : Option CanonicalTable

def notProcessedMsg : Str :=
  "Data has not been processed yet. Call preprocess_data() first.".data

def keyErrorMsg (c : Str) : Str := "KeyError: ".data ++ c

/-- Whether an `Except` result is a success. -/
def exceptIsOk {α : Type} : Except Str α → Bool
  | Except.ok _ => true
  | Except.error _ => false

/-- Distinct cells in first-occurrence order (seen-set accumulator). -/
def dedupAux : List Cell → List Cell → List Cell
  | [], _ => []
  | k :: ks, seen => if k ∈ seen then dedupAux ks seen else k :: dedupAux ks (k :: seen)

/-- Distinct cells of a list, in first-occurrence order. -/
def dedupCells (l : List Cell) : List Cell := dedupAux l []

/-- `DataFrame.groupby` on a column: one group per distinct non-missing
key, carrying the rows bearing that key.  Groups are produced in
first-occurrence order, whereas pandas sorts the keys; no verified
property depends on the order of groups. -/
def groupsOf (col : Str) (rows : List Row) : List (Cell × List Row) :=
  let keys := dedupCells ((rows.map (fun r => getCellD r col)).filter (fun c => c != Cell.null))
  keys.map (fun k => (k, rows.filter (fun r => getCellD r col == k)))

/-- Rows classified `approved` (`status_standardized == 'approved'`). -/
def approvedCount (rows : List Row) : Nat :=
  rows.countP (fun r => getCellD r statusStdCol == Cell.str ("approved".data))

/-- One output row of `get_approval_rate`; `group` is the group key
(`none` on the ungrouped overall row). -/
structure ApprovalRow where
  group : Option Cell
  total_applications : Nat
  approved : Nat
  approval_rate : ℚ
deriving DecidableEq

def quarterCol : Str := "quarter".data

/-- `to_period('Q')` rendering of a timestamp. -/
def quarterOf (t : Int) : Str :=
  intRepr (yearOf t) ++ Char.ofNat 81 :: intRepr (Int.fdiv (monthOf t + 2) 3)

/-- The derived `quarter` column of the quarterly branch; `astype(str)`
turns a missing date into the literal string rendering of `NaT`. -/
def addQuarterCol (rows : List Row) : List Row :=
  rows.map (fun r => r ++
    [(quarterCol,
      match getCellD r appDateCol with
      | Cell.date t => Cell.str (quarterOf t)
      | _ => Cell.str ("NaT".data))])

/-- Grouper selection of `get_approval_rate`: the
`time_period`/`group_by` `elif` chain, yielding the grouping column and
the row set it runs on (`none` means the overall branch; the quarterly
branch first derives the `quarter` column). -/
def approvalGrouper (table : CanonicalTable) (group_by time_period : Option Str) :
    Option (Str × List Row) :=
  if time_period == some ("monthly".data) && table.cols.contains ymCol then
    some (ymCol, table.rows)
  else if time_period == some ("quarterly".data) && table.cols.contains appDateCol then
    some (quarterCol, addQuarterCol table.rows)
  else if time_period == some ("yearly".data) && table.cols.contains yearCol then
    some (yearCol, table.rows)
  else
    match group_by with
    | some g => if table.cols.contains g then some (g, table.rows) else none
    | none => none

/-- The single overall approval-rate row: the `approved/total if
total > 0 else 0` guard of the ungrouped branch. -/
def approvalOverall (rows : List Row) : ApprovalRow :=
  ⟨none, rows.length, approvedCount rows,
   if 0 < rows.length then (approvedCount rows : ℚ) / (rows.length : ℚ) else 0⟩

/-- The grouped approval-rate rows: per group, size, approved count,
and the `approved / total` column division. -/
def approvalGrouped (col : Str) (rows : List Row) : List ApprovalRow :=
  (groupsOf col rows).map (fun g =>
    ⟨some g.1, g.2.length, approvedCount g.2,
     (approvedCount g.2 : ℚ) / (g.2.length : ℚ)⟩)

/-- `DataProcessor.get_approval_rate`: raises until the view exists;
picks a grouper by the `time_period`/`group_by` chain; with no grouper
returns the single overall row, with a grouper one row per group. -/
def get_approval_rate (p : DataProcessor) (group_by : Option Str)
    (time_period : Option Str) : Except Str (List ApprovalRow) :=
  match p.data with
  | none => Except.error notProcessedMsg
  | some table =>
    if table.cols.contains statusStdCol then
      match approvalGrouper table group_by time_period with
      | none => Except.ok [approvalOverall table.rows]
      | some pr => Except.ok (approvalGrouped pr.1 pr.2)
    else Except.error (keyErrorMsg statusStdCol)

/-- Numeric values of a column over a list of rows (non-numeric and
missing cells skipped, as pandas aggregations do). -/
def numValues (c : Str) (rows : List Row) : List ℚ :=
  rows.filterMap (fun r =>
    match getCellD r c with
    | Cell.num q => some q
    | _ => none)

/-- Ascending insertion sort on rationals. -/
def insertQ (x : ℚ) : List ℚ → List ℚ
  | [] => [x]
  | y :: ys => if x ≤ y then x :: y :: ys else y :: insertQ x ys

def sortQ : List ℚ → List ℚ
  | [] => []
  | x :: xs => insertQ x (sortQ xs)

/-- Mean; `none` is the NaN a pandas mean of an empty series gives. -/
def meanQ (l : List ℚ) : Option ℚ :=
  if l.isEmpty then none else some (l.sum / (l.length : ℚ))

/-- Median (average of the two middle values at even length). -/
def medianQ (l : List ℚ) : Option ℚ :=
  let s := sortQ l
  let n := s.length
  if n = 0 then none
  else if n % 2 = 1 then s[n / 2]?
  else
    match s[n / 2 - 1]?, s[n / 2]? with
    | some a, some b => some ((a + b) / 2)
    | _, _ => none

/-- Sample variance (ddof = 1); `none` below two values.  The source
reports the standard deviation, the square root of this quantity; the
root is irrational in general and no verified property depends on the
reported value, so the embedding carries the variance. -/
def varQ (l : List ℚ) : Option ℚ :=
  let n := l.length
  if n < 2 then none
  else
    let m := l.sum / (n : ℚ)
    some ((l.map (fun x => (x - m) ^ 2)).sum / ((n : ℚ) - 1))

/-- One output row of `get_processing_time_stats`. -/
structure PtStatsRow where
  group : Option Cell
  count : Nat
  mean_days : Option ℚ
  median_days : Option ℚ
  min_days : Option ℚ
  max_days : Option ℚ
  var_days : Option ℚ
deriving DecidableEq

/-- `DataProcessor.get_processing_time_stats`: raises until the view
exists, raises when `processing_time_days` was never derived, drops
rows with missing processing time, and aggregates overall or per
group. -/
def get_processing_time_stats (p : DataProcessor) (group_by : Option Str) :
    Except Str (List PtStatsRow) :=
  match p.data with
  | none => Except.error notProcessedMsg
  | some table =>
    if !table.cols.contains ptimeCol then
      Except.error ("Processing time not calculated. Check date columns mapping.".data)
    else
      let rows := table.rows.filter (fun r =>
        match getCellD r ptimeCol with
        | Cell.num _ => true
        | _ => false)
      let doGroup : Option Str :=
        match group_by with
        | some g => if table.cols.contains g then some g else none
        | none => none
      match doGroup with
      | some g =>
        Except.ok ((groupsOf g rows).map (fun pr =>
          let vs := numValues ptimeCol pr.2
          ⟨some pr.1, vs.length, meanQ vs, medianQ vs, vs.min?, vs.max?, varQ vs⟩))
      | none =>
        let vs := numValues ptimeCol rows
        Except.ok [⟨none, vs.length, meanQ vs, medianQ vs, vs.min?, vs.max?, varQ vs⟩]

/-- One output row of `get_rejection_factors`. -/
structure RejRow where
  reason : Cell
  count : Nat
  percentage : ℚ
deriving DecidableEq

/-- Two-decimal rounding on exact rationals (`round(x, 2)`); the
floating-point original resolves exact half-way cases to even, a
difference confined to exact multiples of 0.005 that no verified
property touches. -/
def round2 (q : ℚ) : ℚ := ((round (q * 100) : ℤ) : ℚ) / 100

/-- Descending stable insertion by count. -/
def insertRejDesc (x : RejRow) : List RejRow → List RejRow
  | [] => [x]
  | y :: ys => if y.count < x.count then x :: y :: ys else y :: insertRejDesc x ys

/-- `value_counts`-style descending sort; ties between equal counts are
kept in first-occurrence order, which `value_counts` leaves unspecified,
and no verified property depends on tie order. -/
def sortRejDesc : List RejRow → List RejRow
  | [] => []
  | x :: xs => insertRejDesc x (sortRejDesc xs)

/-- The rows classified `rejected` of a canonical view. -/
def rejectedRows (table : CanonicalTable) : List Row :=
  table.rows.filter (fun r => getCellD r statusStdCol == Cell.str ("rejected".data))

/-- The non-missing `rejection_reason` values of the rejected rows, in
row order (the series `value_counts` is taken over). -/
def rejection_reason_values (table : CanonicalTable) : List Cell :=
  ((rejectedRows table).filter (fun r => getCellD r reasonCol != Cell.null)).map
    (fun r => getCellD r reasonCol)

/-- The counted, percentaged rejection-reason rows before sorting. -/
def rejectionCounts (table : CanonicalTable) : List RejRow :=
  let reasons := rejection_reason_values table
  (dedupCells reasons).map (fun k =>
    (⟨k, reasons.count k, round2 ((reasons.count k : ℚ) / (reasons.length : ℚ) * 100)⟩ : RejRow))

/-- `DataProcessor.get_rejection_factors`: raises until the view
exists; over rejected rows with a non-missing `rejection_reason`,
counts each reason, attaches its rounded percentage of all counted
rejections, sorts descending by count and truncates to `n_top`; an
unmapped reason column yields the empty table. -/
def get_rejection_factors (p : DataProcessor) (n_top : Nat) :
    Except Str (List RejRow) :=
  match p.data with
  | none => Except.error notProcessedMsg
  | some table =>
    if !table.cols.contains statusStdCol then Except.error (keyErrorMsg statusStdCol)
    else if table.cols.contains reasonCol then
      Except.ok ((sortRejDesc (rejectionCounts table)).take n_top)
    else Except.ok []

/-- A column whose present cells are all numeric (the embedding's
reading of `is_numeric_dtype`). -/
def numericColumn (table : CanonicalTable) (c : Str) : Bool :=
  table.rows.all (fun r =>
    match getCellD r c with
    | Cell.num _ => true
    | Cell.null => true
    | _ => false)

/-- Signed square of Pearson's correlation of two equal-length series
(`none` is the NaN of a zero-variance input).  The source reports r
itself; r involves a real square root, and the signed square has the
same sign and zero set, so no verified property is affected. -/
def pearsonSigned (xs ys : List ℚ) : Option ℚ :=
  let n := xs.length
  if n = 0 then none
  else
    let mx := xs.sum / (n : ℚ)
    let my := ys.sum / (n : ℚ)
    let cov := ((xs.zip ys).map (fun p => (p.1 - mx) * (p.2 - my))).sum
    let vx := (xs.map (fun x => (x - mx) ^ 2)).sum
    let vy := (ys.map (fun y => (y - my) ^ 2)).sum
    if vx = 0 || vy = 0 then none
    else some (cov * |cov| / (vx * vy))

/-- `DataProcessor.get_correlation_factors`: raises until the view
exists; correlates each available numeric factor with the binary
approved indicator over the rows where the factor is present. -/
def get_correlation_factors (p : DataProcessor) :
    Except Str (List (Str × Option ℚ)) :=
  match p.data with
  | none => Except.error notProcessedMsg
  | some table =>
    if !table.cols.contains statusStdCol then Except.error (keyErrorMsg statusStdCol)
    else
      let factors := ([loanCol, incomeCol, creditCol, ptimeCol]).filter
        (fun c => table.cols.contains c && numericColumn table c)
      Except.ok (factors.filterMap (fun c =>
        let pairs := table.rows.filterMap (fun r =>
          match getCellD r c with
          | Cell.num q =>
            some (q, if getCellD r statusStdCol == Cell.str ("approved".data) then (1 : ℚ) else 0)
          | _ => none)
        if pairs.length = 0 then none
        else some (c, pearsonSigned (pairs.map (fun pr => pr.1)) (pairs.map (fun pr => pr.2)))))

/-- One output row of `get_loan_amount_analysis`. -/
structure LoanRow where
  status : Cell
  count : Nat
  mean : Option ℚ
  median : Option ℚ
  min : Option ℚ
  max : Option ℚ
deriving DecidableEq

/-- `DataProcessor.get_loan_amount_analysis`: raises until the view
exists; empty when `loan_amount` is unmapped; otherwise loan-amount
aggregates per standardized status. -/
def get_loan_amount_analysis (p : DataProcessor) : Except Str (List LoanRow) :=
  match p.data with
  | none => Except.error notProcessedMsg
  | some table =>
    if !table.cols.contains loanCol then Except.ok []
    else if !table.cols.contains statusStdCol then Except.error (keyErrorMsg statusStdCol)
    else
      Except.ok ((groupsOf statusStdCol table.rows).map (fun pr =>
        let vs := numValues loanCol pr.2
        ⟨pr.1, vs.length, meanQ vs, medianQ vs, vs.min?, vs.max?⟩))

/-- The dictionary `detect_trends` returns. -/
structure TrendResult where
  trend : Str
  p_value : Option ℚ
  confidence : Option Str
  recent_change : Option ℚ
deriving DecidableEq

def insufficientTrend : TrendResult := ⟨"insufficient data".data, none, none, none⟩

/-- The recent-change ratio of a value list: `(last − first) / first`,
defined as 0 when the first value is 0 (`none` on an empty list, where
the source never evaluates it). -/
def recent_change_of (l : List ℚ) : Option ℚ :=
  match l with
  | [] => none
  | a :: rest => some (if a = 0 then 0 else (rest.getLastD a - a) / a)

/-- The body of `detect_trends` on the de-missed value list,
parametrized by the outcome of the call `stats.mannkendall(values)`:
`some (trend, p)` models a call returning a trend statistic and
p-value, `none` a call that raises (any exception lands in the bare
`except` fallback). -/
def detect_trends_with (mk : List ℚ → Option (ℚ × ℚ)) (values : List ℚ) : TrendResult :=
  if values.length < 3 then insufficientTrend
  else
    match mk values with
    | some tp =>
      let confidence :=
        if tp.2 ≤ 5 / 100 then "high".data
        else if tp.2 ≤ 1 / 10 then "moderate".data
        else "low".data
      let direction :=
        if 0 < tp.1 then "increasing".data
        else if tp.1 < 0 then "decreasing".data
        else "stable".data
      let rc :=
        if 3 ≤ values.length then recent_change_of (values.drop (values.length - 3))
        else none
      ⟨direction, some tp.2, some confidence, rc⟩
    | none =>
      if 2 ≤ values.length then
        let slope := (values.getLastD 0 - values.headD 0) / ((values.length : ℚ) - 1)
        let direction :=
          if 1 / 100 < slope then "increasing".data
          else if slope < -(1 / 100) then "decreasing".data
          else "stable".data
        ⟨direction, none, some ("low".data), recent_change_of values⟩
      else insufficientTrend

/-- `detect_trends` over the selected series column, parametric in the
significance-test call: empty input short-circuits, missing values are
dropped, then `detect_trends_with` runs. -/
def detect_trends_aux (mk : List ℚ → Option (ℚ × ℚ)) (series : List (Option ℚ)) : TrendResult :=
  if series.isEmpty then insufficientTrend
  else detect_trends_with mk (series.filterMap id)

/-- `detect_trends` as the source runs: `scipy.stats` defines no
attribute `mannkendall`, so the call `stats.mannkendall(values)` raises
`AttributeError` on every input, the bare `except` swallows it, and the
fallback slope branch always runs. -/
def detect_trends (series : List (Option ℚ)) : TrendResult :=
  detect_trends_aux (fun _ => none) series

/-- An insight record as `generate_recommendations` reads it. -/
structure Insight where
  category : Str
  description : Str
  severity : Option Str
deriving DecidableEq

structure Recommendation where
  category : Str
  description : Str
  priority : Str
deriving DecidableEq

/-- The category/keyword rules of `generate_recommendations`, applied
to one insight; each conditional append of the source contributes in
order. -/
def recsFor (ins : Insight) : List Recommendation :=
  let category := ins.category
  let description := ins.description
  (if category == "approval_rate".data && isInfixOfL ("decreasing".data) description then
    [⟨"approval_rate".data,
      "Investigate reasons for declining approval rates and consider adjusting lending criteria or application processes".data,
      "high".data⟩]
   else []) ++
  (if category == "processing_time".data && isInfixOfL ("increasing".data) description then
    [⟨"processing_time".data,
      "Review and optimize loan processing workflow to reduce increasing processing times".data,
      "high".data⟩]
   else if category == "processing_time".data && isInfixOfL ("decreasing".data) description then
    [⟨"processing_time".data,
      "Document and standardize recent process improvements that have led to reduced processing times".data,
      "medium".data⟩]
   else []) ++
  (if category == "bottleneck".data then
    let severity := ins.severity.getD ("medium".data)
    let hiPriority : Str := if severity == "high".data then "high".data else "medium".data
    (if isInfixOfL ("processing_time outliers".data) description then
      [⟨"bottleneck".data,
        "Implement process monitoring to identify and address applications with extended processing times".data,
        hiPriority⟩]
     else []) ++
    (if isInfixOfL ("rejection_reason".data) description then
      [⟨"bottleneck".data,
        "Focus on the dominant rejection reason to improve application quality or adjust lending criteria".data,
        hiPriority⟩]
     else []) ++
    (if isInfixOfL ("volume_fluctuation".data) description then
      [⟨"bottleneck".data,
        "Develop resource allocation strategy to better handle application volume fluctuations".data,
        "medium".data⟩]
     else [])
   else []) ++
  (if category == "correlation".data then
    (if isInfixOfL ("loan amount".data) (lowerStr description) && isInfixOfL ("negative".data) description then
      [⟨"correlation".data,
        "Review lending criteria for higher loan amounts to identify potential barriers to approval".data,
        "medium".data⟩]
     else []) ++
    (if isInfixOfL ("credit score".data) (lowerStr description) && isInfixOfL ("positive".data) description then
      [⟨"correlation".data,
        "Consider developing specialized products for different credit score segments".data,
        "medium".data⟩]
     else []) ++
    (if isInfixOfL ("income".data) (lowerStr description) then
      [⟨"correlation".data,
        "Evaluate income verification procedures and requirements for potential optimization".data,
        "medium".data⟩]
     else [])
   else [])

/-- The two standard generic recommendations. -/
def genericRecs : List Recommendation :=
  [⟨"general".data,
    "Implement regular data analysis reviews to track key metrics and identify trends early".data,
    "medium".data⟩,
   ⟨"general".data,
    "Develop standardized reporting for loan origination performance to share with stakeholders".data,
    "medium".data⟩]

/-- The category-and-keyword-mapped (specific) recommendations of an
insight list. -/
def specific_recommendations (insights : List Insight) : List Recommendation :=
  (insights.map recsFor).flatten

/-- `generate_recommendations`: an empty insight list returns the empty
list at once; otherwise the specific recommendations are produced and,
when fewer than 3, the generic ones are appended. -/
def generate_recommendations (insights : List Insight) : List Recommendation :=
  if insights.isEmpty then []
  else
    let recommendations := specific_recommendations insights
    if recommendations.length < 3 then recommendations ++ genericRecs
    else recommendations

/-- Index of the first occurrence of a string in a list (`list.index`;
callers only evaluate it on present elements). -/
def idxOfStr (l : List Str) (a : Str) : Nat :=
  match l with
  | [] => 0
  | b :: bs => if b = a then 0 else idxOfStr bs a + 1

/-- The exact-match loop of `suggest_column`. -/
def suggestExact (columns names : List Str) : Option Nat :=
  names.findSome? (fun name =>
    if columns.contains name then some (idxOfStr columns name + 1) else none)

/-- The case-insensitive-match nested loop of `suggest_column`. -/
def suggestCI (columns names : List Str) : Option Nat :=
  names.findSome? (fun name => columns.findSome? (fun col =>
    if lowerStr name = lowerStr col then some (idxOfStr columns col + 1) else none))

/-- The partial-match (substring either way) nested loop of
`suggest_column`. -/
def suggestSub (columns names : List Str) : Option Nat :=
  names.findSome? (fun name => columns.findSome? (fun col =>
    if isInfixOfL (lowerStr name) (lowerStr col) || isInfixOfL (lowerStr col) (lowerStr name) then
      some (idxOfStr columns col + 1)
    else none))

/-- `DataProcessor.suggest_column`: exact match first, then
case-insensitive exact match, then case-insensitive substring
containment in either direction, each scanned in pattern-priority
order; the returned index is 1-based into the column list (the caller
prepends an empty choice), 0 when nothing matches. -/
def suggest_column (columns possible_names : List Str) : Nat :=
  match suggestExact columns possible_names with
  | some i => i
  | none =>
    match suggestCI columns possible_names with
    | some i => i
    | none =>
      match suggestSub columns possible_names with
      | some i => i
      | none => 0

/-- The error the app shows when a required field is unmapped. -/
def mappingErrorMsg : Str :=
  "Please map at least Application ID, Application Date, Decision Date, and Status columns!".data

/-- The process-data handler of `app.py`: when any of the four required
selections is empty it shows the mapping error and does not run
normalization; otherwise it sets the column mapping (optional
selections pass through, empty ones as `None`) and runs
`preprocess_data`. -/
def process_data_handler (raw : RawTable)
    (app_id app_date dec_date status loan income credit reason : Option Str) :
    Except Str CanonicalTable :=
  match app_id, app_date, dec_date, status with
  | some a, some b, some c, some d =>
    preprocess_data raw ⟨some a, some b, some c, some d, loan, income, credit, reason⟩
  | _, _, _, _ => Except.error mappingErrorMsg

/-- The specification's recent-change formula, stated from the spec's
words for comparison: `(last − first) / first` over the trailing 3
values of the series, 0 when that base value is 0. -/
def spec_recent_change_trailing3 (values : List ℚ) : Option ℚ :=
  recent_change_of (values.drop (values.length - 3))

/-- A pattern matches a column exactly. -/
@[reducible] def exactMatches (columns names : List Str) : Prop :=
  ∃ n ∈ names, n ∈ columns

/-- A pattern matches a column up to case. -/
@[reducible] def ciMatches (columns names : List Str) : Prop :=
  ∃ n ∈ names, ∃ c ∈ columns, lowerStr n = lowerStr c

/-- A pattern and a column match by case-insensitive substring
containment in either direction. -/
@[reducible] def subMatches (columns names : List Str) : Prop :=
  ∃ n ∈ names, ∃ c ∈ columns, lowerStr n <:+: lowerStr c ∨ lowerStr c <:+: lowerStr n

/-! Concrete fixtures for the claim witnesses and counterexamples. -/

/-- A processor whose data has not been preprocessed yet. -/
def noneProc : DataProcessor :=
  ⟨⟨[], []⟩, ⟨none, none, none, none, none, none, none, none⟩, none⟩

/-- A processor holding an empty canonical view (zero rows, status
column present). -/
def emptyViewProc : DataProcessor :=
  ⟨⟨[], []⟩, ⟨none, none, none, none, none, none, none, none⟩, some ⟨[statusStdCol], []⟩⟩

/-- A rejected canonical row with the given rejection reason. -/
def rejRow (reason : Str) : Row :=
  [(statusStdCol, Cell.str ("rejected".data)), (reasonCol, Cell.str reason)]

/-- Ten rejected rows: six with reason `Low Credit Score`, four with
reason `Other`. -/
def exRejTable : CanonicalTable :=
  ⟨[statusStdCol, reasonCol],
   List.replicate 6 (rejRow ("Low Credit Score".data)) ++ List.replicate 4 (rejRow ("Other".data))⟩

def exRejProc : DataProcessor :=
  ⟨⟨[], []⟩, ⟨none, none, none, none, none, none, none, none⟩, some exRejTable⟩

/-- A raw table with identifier and date columns: each date column
holds one parsed timestamp (epoch, i.e. 1970-01-01), so both columns
become datetimelike, while each row misses one of the two dates. -/
def exDatesRaw : RawTable :=
  ⟨["id".data, "ad".data, "dd".data],
   [[("id".data, Cell.str ("A-1".data)), ("ad".data, Cell.date 0), ("dd".data, Cell.null)],
    [("id".data, Cell.str ("A-2".data)), ("ad".data, Cell.null), ("dd".data, Cell.date 0)]]⟩

/-- A mapping of the identifier and both date fields that leaves
`status` (a required field) unmapped. -/
def exDatesMap : ColumnMapping :=
  ⟨some ("id".data), some ("ad".data), some ("dd".data), none, none, none, none, none⟩

/-- The canonical view `preprocess_data` produces for `exDatesRaw`
under `exDatesMap`: processing time is missing in both rows (one date
absent each), the period keys of the first row come from the epoch
timestamp. -/
def exDatesTable : CanonicalTable :=
  ⟨[appIdCol, appDateCol, decDateCol, ptimeCol, monthCol, yearCol, ymCol],
   [[(appIdCol, Cell.str ("A-1".data)), (appDateCol, Cell.date 0), (decDateCol, Cell.null),
     (ptimeCol, Cell.null), (monthCol, Cell.num 1), (yearCol, Cell.num 1970),
     (ymCol, Cell.str ("1970-01".data))],
    [(appIdCol, Cell.str ("A-2".data)), (appDateCol, Cell.null), (decDateCol, Cell.date 0),
     (ptimeCol, Cell.null), (monthCol, Cell.null), (yearCol, Cell.null), (ymCol, Cell.null)]]⟩

/-- An insight that triggers exactly one specific recommendation. -/
def exInsight : Insight :=
  ⟨"processing_time".data,
   "Processing time shows a increasing trend with low confidence".data, none⟩

/-- The column list of the column-mapper test fixture. -/
def exCols : List Str :=
  ["Application_ID".data, "App Date".data, "decision_date".data, "Status".data]

/-- The pattern list of the column-mapper test fixture. -/
def exNames : List Str :=
  ["application_id".data, "loan_id".data, "id".data]

/-! Helper lemmas. -/

theorem isPrefixOfL_iff (p s : Str) : isPrefixOfL p s = true ↔ p <+: s := by
  induction p generalizing s with
  | nil => simp [isPrefixOfL, List.nil_prefix]
  | cons a as ih =>
    cases s with
    | nil => simp [isPrefixOfL]
    | cons b bs =>
      simp only [isPrefixOfL, Bool.and_eq_true, decide_eq_true_eq, ih,
        List.cons_prefix_cons]

theorem isInfixOfL_iff (p s : Str) : isInfixOfL p s = true ↔ p <:+: s := by
  induction s with
  | nil =>
    simp [isInfixOfL, isPrefixOfL_iff, List.prefix_nil, List.infix_nil]
  | cons b bs ih =>
    simp only [isInfixOfL, Bool.or_eq_true, isPrefixOfL_iff, ih]
    constructor
    · rintro (h | h)
      · exact h.isInfix
      · exact h.trans (List.suffix_cons b bs).isInfix
    · intro h
      rcases h with ⟨t, u, htu⟩
      cases t with
      | nil => exact Or.inl ⟨u, by simpa using htu⟩
      | cons x xs =>
        refine Or.inr ⟨xs, u, ?_⟩
        have := htu
        simp only [List.cons_append] at this
        exact (List.cons.injEq .. ▸ this).2

/-- Bool equality tests of the source, re-expressed through `decide`
for the evaluation lemmas. -/
theorem beq_cell_decide (a b : Cell) : (a == b) = decide (a = b) := rfl

theorem bne_cell_decide (a b : Cell) : (a != b) = !decide (a = b) := rfl

theorem beq_str_decide (a b : Str) : (a == b) = decide (a = b) := by
  by_cases h : a = b
  · subst h; simp
  · simp [h]

theorem mem_of_mem_dedupAux {x : Cell} :
    ∀ {l seen : List Cell}, x ∈ dedupAux l seen → x ∈ l := by
  intro l
  induction l with
  | nil => intro seen h; simp [dedupAux] at h
  | cons k ks ih =>
    intro seen h
    simp only [dedupAux] at h
    by_cases hk : k ∈ seen
    · simp only [if_pos hk] at h
      exact List.mem_cons_of_mem _ (ih h)
    · simp only [if_neg hk, List.mem_cons] at h
      rcases h with h | h
      · exact h ▸ List.mem_cons_self _ _
      · exact List.mem_cons_of_mem _ (ih h)

theorem mem_of_mem_dedupCells {x : Cell} {l : List Cell} (h : x ∈ dedupCells l) : x ∈ l :=
  mem_of_mem_dedupAux h

/-- Every group `groupby` produces holds at least one row. -/
theorem groupsOf_total_pos (col : Str) (rows : List Row) :
    ∀ g ∈ groupsOf col rows, 0 < g.2.length := by
  intro g hg
  simp only [groupsOf, List.mem_map] at hg
  obtain ⟨k, hk, rfl⟩ := hg
  have hk2 : k ∈ (rows.map (fun r => getCellD r col)).filter (fun c => c != Cell.null) :=
    mem_of_mem_dedupCells hk
  have hk3 : k ∈ rows.map (fun r => getCellD r col) := List.mem_of_mem_filter hk2
  obtain ⟨r, hr, hkr⟩ := List.mem_map.mp hk3
  have hmem : r ∈ rows.filter (fun r => getCellD r col == k) := by
    rw [List.mem_filter]
    exact ⟨hr, by simp [beq_cell_decide, hkr]⟩
  exact List.length_pos.2 (List.ne_nil_of_mem hmem)

theorem lookupCell_append (xs ys : Row) (c : Str) :
    lookupCell (xs ++ ys) c =
      (match lookupCell xs c with
       | some v => some v
       | none => lookupCell ys c) := by
  induction xs with
  | nil => simp [lookupCell]
  | cons p ps ih =>
    by_cases h : p.1 = c <;> simp [lookupCell, h, ih]

theorem lookupCell_eq_none (row : Row) (c : Str) (h : ∀ p ∈ row, p.1 ≠ c) :
    lookupCell row c = none := by
  induction row with
  | nil => rfl
  | cons p ps ih =>
    simp only [lookupCell, if_neg (h p (List.mem_cons_self p ps))]
    exact ih (fun q hq => h q (List.mem_cons_of_mem p hq))

/-- The keys of the mapped-column list are among the eight canonical
field names. -/
theorem mappedList_key_mem (m : ColumnMapping) :
    ∀ pr ∈ m.mappedList,
      pr.1 ∈ [appIdCol, appDateCol, decDateCol, statusCol, loanCol, incomeCol, creditCol, reasonCol] := by
  intro pr h
  simp only [ColumnMapping.mappedList, List.mem_filterMap] at h
  obtain ⟨a, ha, hmap⟩ := h
  obtain ⟨c, hc, rfl⟩ := Option.map_eq_some'.mp hmap
  simp only [List.mem_cons, List.not_mem_nil, or_false] at ha ⊢
  rcases ha with rfl | rfl | rfl | rfl | rfl | rfl | rfl | rfl <;> simp

/-- In a built canonical row, the `processing_time_days` entry is the
processing-time cell of the parsed dates when both date columns are
mapped, and absent otherwise. -/
theorem buildRow_ptime (m : ColumnMapping) (row : Row) :
    lookupCell (buildRow m row) ptimeCol =
      (match m.application_date, m.decision_date with
       | some ca, some cd =>
         some (processing_time_cell (parseCellToCell (getCellD row ca))
           (parseCellToCell (getCellD row cd)))
       | _, _ => none) := by
  have hbase : lookupCell (m.mappedList.map (fun p =>
      if p.1 = appDateCol ∨ p.1 = decDateCol then (p.1, parseCellToCell (getCellD row p.2))
      else (p.1, getCellD row p.2))) ptimeCol = none := by
    apply lookupCell_eq_none
    intro p hp
    obtain ⟨q, hq, rfl⟩ := List.mem_map.mp hp
    have hmem := mappedList_key_mem m q hq
    have hkey : (if q.1 = appDateCol ∨ q.1 = decDateCol
        then (q.1, parseCellToCell (getCellD row q.2)) else (q.1, getCellD row q.2)).1 = q.1 := by
      by_cases h : q.1 = appDateCol ∨ q.1 = decDateCol <;> simp [h]
    rw [hkey]
    intro hcontra
    rw [hcontra] at hmem
    revert hmem
    decide
  have hn1 : ¬ statusStdCol = ptimeCol := by decide
  have hn2 : ¬ monthCol = ptimeCol := by decide
  have hn3 : ¬ yearCol = ptimeCol := by decide
  have hn4 : ¬ ymCol = ptimeCol := by decide
  cases hst : m.status <;> cases had : m.application_date <;> cases hdd : m.decision_date <;>
    simp only [buildRow, hst, had, hdd, lookupCell_append, hbase, lookupCell, if_neg hn1,
      if_neg hn2, if_neg hn3, if_neg hn4, if_pos rfl] <;>
    first
      | rfl
      | (rename_i ca _; cases hpd : parse_date (getCellD row ca) <;>
          first
            | rfl
            | simp only [lookupCell, if_neg hn2, if_neg hn3, if_neg hn4])
      | (rename_i ca; cases hpd : parse_date (getCellD row ca) <;>
          first
            | rfl
            | simp only [lookupCell, if_neg hn2, if_neg hn3, if_neg hn4])

/-- `processing_time_cell` only produces values inside [0, 365]. -/
theorem processing_time_cell_range (a b : Cell) (q : ℚ)
    (h : processing_time_cell a b = Cell.num q) : 0 ≤ q ∧ q ≤ 365 := by
  cases a with
  | date ta =>
    cases b with
    | date tb =>
      simp only [processing_time_cell] at h
      by_cases h1 : ((tb : ℚ) - (ta : ℚ)) / 86400 < 0
      · rw [if_pos h1] at h; exact absurd h (by simp)
      · rw [if_neg h1] at h
        by_cases h2 : ((tb : ℚ) - (ta : ℚ)) / 86400 > 365
        · rw [if_pos h2] at h; exact absurd h (by simp)
        · rw [if_neg h2] at h
          obtain rfl : ((tb : ℚ) - (ta : ℚ)) / 86400 = q := (Cell.num.injEq _ _).mp h
          exact ⟨le_of_not_lt h1, le_of_not_lt h2⟩
    | null => exact absurd h (by simp [processing_time_cell])
    | str s => exact absurd h (by simp [processing_time_cell])
    | num n => exact absurd h (by simp [processing_time_cell])
  | null => cases b <;> exact absurd h (by simp [processing_time_cell])
  | str s => cases b <;> exact absurd h (by simp [processing_time_cell])
  | num n => cases b <;> exact absurd h (by simp [processing_time_cell])

theorem mem_insertRejDesc {z x : RejRow} {l : List RejRow} :
    z ∈ insertRejDesc x l ↔ z = x ∨ z ∈ l := by
  induction l with
  | nil => simp [insertRejDesc]
  | cons y ys ih =>
    simp only [insertRejDesc]
    by_cases h : y.count < x.count
    · simp [h, List.mem_cons]
    · simp only [if_neg h, List.mem_cons, ih]
      tauto

theorem pairwise_insertRejDesc {x : RejRow} {l : List RejRow}
    (h : List.Pairwise (fun a b => b.count ≤ a.count) l) :
    List.Pairwise (fun a b => b.count ≤ a.count) (insertRejDesc x l) := by
  induction l with
  | nil => simp [insertRejDesc]
  | cons y ys ih =>
    rw [List.pairwise_cons] at h
    simp only [insertRejDesc]
    by_cases hc : y.count < x.count
    · rw [if_pos hc, List.pairwise_cons]
      refine ⟨?_, List.pairwise_cons.mpr h⟩
      intro z hz
      rcases List.mem_cons.mp hz with rfl | hz
      · exact le_of_lt hc
      · exact le_trans (h.1 z hz) (le_of_lt hc)
    · rw [if_neg hc, List.pairwise_cons]
      refine ⟨?_, ih h.2⟩
      intro z hz
      rcases mem_insertRejDesc.mp hz with rfl | hz
      · exact le_of_not_lt hc
      · exact h.1 z hz

theorem sortRejDesc_pairwise (l : List RejRow) :
    List.Pairwise (fun a b => b.count ≤ a.count) (sortRejDesc l) := by
  induction l with
  | nil => simp [sortRejDesc]
  | cons x xs ih => exact pairwise_insertRejDesc ih

theorem mem_sortRejDesc {z : RejRow} {l : List RejRow} :
    z ∈ sortRejDesc l ↔ z ∈ l := by
  induction l with
  | nil => simp [sortRejDesc]
  | cons x xs ih =>
    simp only [sortRejDesc, mem_insertRejDesc, ih, List.mem_cons]

/-! The claims. -/

/-- C4 (amended): `_standardize_status` lower-cases the raw value and
checks the approval vocabulary before the rejection vocabulary by
substring matching, so a value matching both classifies as `approved`;
a value matching neither classifies as `other` — including the empty
string, which is not a missing value; only a missing (null/absent)
value classifies as `unknown`.  In particular `"Approved"` → approved,
`"DECLINED - low score"` → rejected, null → unknown, `""` → other,
`"In Review"` → other. -/
theorem C4_status_classification :
    standardize_status Cell.null = "unknown".data
    ∧ (∀ s : Str, (∃ t ∈ approval_terms, t <:+: lowerStr s) →
        standardize_status (Cell.str s) = "approved".data)
    ∧ (∀ s : Str, ¬(∃ t ∈ approval_terms, t <:+: lowerStr s) →
        (∃ t ∈ rejection_terms, t <:+: lowerStr s) →
        standardize_status (Cell.str s) = "rejected".data)
    ∧ (∀ s : Str, ¬(∃ t ∈ approval_terms, t <:+: lowerStr s) →
        ¬(∃ t ∈ rejection_terms, t <:+: lowerStr s) →
        standardize_status (Cell.str s) = "other".data)
    ∧ standardize_status (Cell.str ("Approved".data)) = "approved".data
    ∧ standardize_status (Cell.str ("DECLINED - low score".data)) = "rejected".data
    ∧ standardize_status (Cell.str ("".data)) = "other".data
    ∧ standardize_status (Cell.str ("In Review".data)) = "other".data := by
  have hany : ∀ (ts : List Str) (s : Str),
      (ts.any (fun t => isInfixOfL t (lowerStr s)) = true) ↔ ∃ t ∈ ts, t <:+: lowerStr s := by
    intro ts s
    rw [List.any_eq_true]
    constructor
    · rintro ⟨t, ht, h⟩; exact ⟨t, ht, (isInfixOfL_iff _ _).mp h⟩
    · rintro ⟨t, ht, h⟩; exact ⟨t, ht, (isInfixOfL_iff _ _).mpr h⟩
  refine ⟨rfl, ?_, ?_, ?_, by decide, by decide, by decide, by decide⟩
  · intro s hs
    simp only [standardize_status]
    rw [if_pos ((hany _ s).mpr hs)]
  · intro s hna hr
    simp only [standardize_status]
    rw [if_neg (fun h => hna ((hany _ s).mp h)), if_pos ((hany _ s).mpr hr)]
  · intro s hna hnr
    simp only [standardize_status]
    rw [if_neg (fun h => hna ((hany _ s).mp h)), if_neg (fun h => hnr ((hany _ s).mp h))]

/-- C4, counterexample to the claim as stated: the empty string is not
a missing value (`pd.isna("")` is false), so it classifies as `other`,
not `unknown`. -/
theorem C4_empty_string_counterexample :
    standardize_status (Cell.str ("".data)) = "other".data
    ∧ standardize_status (Cell.str ("".data)) ≠ "unknown".data := by decide

/-- C4, witness: the classification theorem applied at concrete
statuses. -/
theorem C4_status_classification_witness :
    standardize_status (Cell.str ("Approved".data)) = "approved".data
    ∧ standardize_status (Cell.str ("DECLINED - low score".data)) = "rejected".data
    ∧ standardize_status (Cell.str ("In Review".data)) = "other".data :=
  ⟨C4_status_classification.2.1 ("Approved".data)
     ⟨"approved".data, by decide, by decide⟩,
   C4_status_classification.2.2.1 ("DECLINED - low score".data) (by decide)
     ⟨"declined".data, by decide, by decide⟩,
   C4_status_classification.2.2.2.1 ("In Review".data) (by decide) (by decide)⟩

/-- C10: every metric method raises the `ValueError` "Data has not been
processed yet" while the processed view is `None`, whatever arguments
it is given; none of them returns a result in that state. -/
theorem C10_metrics_require_view (p : DataProcessor) (gb tp : Option Str) (n : Nat)
    (h : p.data = none) :
    get_approval_rate p gb tp = Except.error notProcessedMsg
    ∧ get_processing_time_stats p gb = Except.error notProcessedMsg
    ∧ get_rejection_factors p n = Except.error notProcessedMsg
    ∧ get_correlation_factors p = Except.error notProcessedMsg
    ∧ get_loan_amount_analysis p = Except.error notProcessedMsg := by
  obtain ⟨raw, m, d⟩ := p
  cases h
  exact ⟨rfl, rfl, rfl, rfl, rfl⟩

/-- C10, witness: the guard at a freshly constructed processor. -/
theorem C10_metrics_require_view_witness :
    get_approval_rate noneProc none none = Except.error notProcessedMsg
    ∧ get_processing_time_stats noneProc none = Except.error notProcessedMsg
    ∧ get_rejection_factors noneProc 10 = Except.error notProcessedMsg
    ∧ get_correlation_factors noneProc = Except.error notProcessedMsg
    ∧ get_loan_amount_analysis noneProc = Except.error notProcessedMsg :=
  C10_metrics_require_view noneProc none none 10 rfl

/-- C9, counterexample to the claim as stated: for the empty insight
list — an insight list generating zero (< 3) specific recommendations —
`generate_recommendations` returns the empty list, with no generic
recommendations appended. -/
theorem C9_empty_insights_counterexample :
    generate_recommendations [] = [] := rfl

/-- C9 (amended): for every non-empty insight list, if fewer than 3
specific recommendations are generated the two standard generic
recommendations are appended, and the returned list is non-empty; the
empty insight list instead returns the empty list at once. -/
theorem C9_recommendations_nonempty (insights : List Insight) (h : insights ≠ []) :
    ((specific_recommendations insights).length < 3 →
      generate_recommendations insights = specific_recommendations insights ++ genericRecs)
    ∧ generate_recommendations insights ≠ [] := by
  have hne : insights.isEmpty = false := by
    rw [List.isEmpty_eq_false]
    exact h
  constructor
  · intro hlt
    simp only [generate_recommendations, hne, Bool.false_eq_true, if_false, if_pos hlt]
  · by_cases hlt : (specific_recommendations insights).length < 3
    · simp only [generate_recommendations, hne, Bool.false_eq_true, if_false, if_pos hlt]
      exact List.append_ne_nil_of_right_ne_nil _ (by decide)
    · simp only [generate_recommendations, hne, Bool.false_eq_true, if_false, if_neg hlt]
      intro hnil
      rw [hnil] at hlt
      exact hlt (by decide)

/-- C9, witness: a single processing-time insight generates one
specific recommendation, so the generics are appended and the output is
non-empty. -/
theorem C9_recommendations_nonempty_witness :
    ((specific_recommendations [exInsight]).length < 3 →
      generate_recommendations [exInsight] = specific_recommendations [exInsight] ++ genericRecs)
    ∧ generate_recommendations [exInsight] ≠ [] :=
  C9_recommendations_nonempty [exInsight] (by decide)

/-- C2: on the state of the shipped code, `scipy.stats` has no
attribute `mannkendall`, the call raises and the bare `except` routes
every series to the fallback, whose confidence is always `low`: the
series `[0.40, 0.42, 0.45, 0.47, 0.50]` comes back `increasing` with
confidence `low` (not `high` or `moderate` as the claim's mapping
requires); `[0.5, 0.5, 0.5]` is `stable` and a length-2 series is
`insufficient data` as claimed. -/
theorem C2_detect_trends_shipped_path :
    detect_trends [some (40/100), some (42/100), some (45/100), some (47/100), some (50/100)]
      = ⟨"increasing".data, none, some ("low".data), some (1/4)⟩
    ∧ detect_trends [some (1/2), some (1/2), some (1/2)]
      = ⟨"stable".data, none, some ("low".data), some 0⟩
    ∧ detect_trends [some (1/2), some (1/2)] = insufficientTrend := by
  refine ⟨?_, ?_, ?_⟩
  · simp only [detect_trends, detect_trends_aux, detect_trends_with, recent_change_of,
      List.filterMap, id_eq, List.getLast?, Option.getD, List.isEmpty, List.length]
    norm_num
  · simp only [detect_trends, detect_trends_aux, detect_trends_with, recent_change_of,
      List.filterMap, id_eq, List.getLast?, Option.getD, List.isEmpty, List.length]
    norm_num
  · simp only [detect_trends, detect_trends_aux, detect_trends_with, insufficientTrend,
      List.filterMap, id_eq, List.isEmpty, List.length]
    norm_num

/-- C6, counterexample to the claim as stated: on the fallback path —
the path the shipped code always takes — `recent_change` is computed
over the whole series, not the trailing 3 values: for the series
`[1, 2, 2, 2]` the code returns `(2 − 1)/1 = 1` while the trailing-3
formula gives `(2 − 2)/2 = 0`. -/
theorem C6_recent_change_counterexample :
    (detect_trends [some 1, some 2, some 2, some 2]).recent_change = some 1
    ∧ spec_recent_change_trailing3 [1, 2, 2, 2] = some 0
    ∧ (detect_trends [some 1, some 2, some 2, some 2]).recent_change
        ≠ spec_recent_change_trailing3 [1, 2, 2, 2] := by
  have h1 : (detect_trends [some 1, some 2, some 2, some 2]).recent_change = some 1 := by
    simp only [detect_trends, detect_trends_aux, detect_trends_with, recent_change_of,
      List.filterMap, id_eq, List.getLast?, Option.getD, List.isEmpty, List.length]
    norm_num
  have h2 : spec_recent_change_trailing3 [1, 2, 2, 2] = some 0 := by
    simp only [spec_recent_change_trailing3, recent_change_of, List.length, List.drop,
      List.getLast?, Option.getD]
    norm_num
  refine ⟨h1, h2, ?_⟩
  rw [h1, h2]
  simp

/-- C6 (amended): for a series of at least 3 values, the primary
(significance-test) path computes `recent_change` as
`(last − first)/first` over the trailing 3 values (0 when the base is
0), but the fallback path computes it over the entire series (0 when
the first value is 0); the shipped code always takes the fallback, so
the returned ratio is the full-series one. -/
theorem C6_recent_change_paths (t p : ℚ) (vals : List ℚ) (h : 3 ≤ vals.length) :
    (detect_trends_with (fun _ => some (t, p)) vals).recent_change
      = spec_recent_change_trailing3 vals
    ∧ (detect_trends_with (fun _ => none) vals).recent_change = recent_change_of vals := by
  have h3 : ¬ vals.length < 3 := by omega
  have h2 : 2 ≤ vals.length := by omega
  constructor
  · simp only [detect_trends_with, if_neg h3, if_pos h, spec_recent_change_trailing3]
  · simp only [detect_trends_with, if_neg h3, if_pos h2]

/-- C6, witness: the two path formulas at the concrete series
`[1, 2, 2, 2]`. -/
theorem C6_recent_change_paths_witness :
    (detect_trends_with (fun _ => some ((1 : ℚ), (1/2 : ℚ))) [1, 2, 2, 2]).recent_change
      = spec_recent_change_trailing3 [1, 2, 2, 2]
    ∧ (detect_trends_with (fun _ => none) [1, 2, 2, 2]).recent_change
      = recent_change_of [1, 2, 2, 2] :=
  C6_recent_change_paths 1 (1/2) [1, 2, 2, 2] (by simp)

/-- C1, counterexample to the claim as stated: with `status` — a
required field — left unmapped, `preprocess_data` raises nothing and
returns a canonical view (without the status columns) instead of a
"not ready" error.  Both date columns of the fixture hold a parseable
timestamp, so they become datetimelike and the `.dt` accessor is
happy: the run genuinely succeeds. -/
theorem C1_preprocess_no_guard_counterexample :
    preprocess_data exDatesRaw exDatesMap = Except.ok exDatesTable
    ∧ exceptIsOk (preprocess_data exDatesRaw exDatesMap) = true := ⟨rfl, rfl⟩

/-- C1 (amended): the required-field "not ready" guard lives in the
caller, not in `preprocess_data`: the app's process-data handler
refuses with the mapping error whenever any of the four required
selections is empty, and runs normalization when all four are given;
`preprocess_data` itself never checks required fields and returns the
canonical view built from whichever columns are mapped.  Its failures
are unrelated to that check: a mapped source column missing from the
raw table, or a mapped date column fed to the `.dt` accessor in which
no value parses. -/
theorem C1_required_field_guard :
    (∀ (raw : RawTable) (loan income credit reason ai ad dd st : Option Str),
       ai = none ∨ ad = none ∨ dd = none ∨ st = none →
       process_data_handler raw ai ad dd st loan income credit reason
         = Except.error mappingErrorMsg)
    ∧ (∀ (raw : RawTable) (m : ColumnMapping),
       (∀ pr ∈ m.mappedList, raw.cols.contains pr.2 = true) →
       dateColsOk raw m = true →
       preprocess_data raw m = Except.ok ⟨canonicalCols m, raw.rows.map (buildRow m)⟩)
    ∧ (∀ (raw : RawTable) (m : ColumnMapping),
       (∀ pr ∈ m.mappedList, raw.cols.contains pr.2 = true) →
       dateColsOk raw m = false →
       preprocess_data raw m = Except.error dtAccessorErrorMsg)
    ∧ (∀ (raw : RawTable) (ai ad dd st : Str) (loan income credit reason : Option Str),
       (∀ pr ∈ (ColumnMapping.mk (some ai) (some ad) (some dd) (some st)
          loan income credit reason).mappedList, raw.cols.contains pr.2 = true) →
       dateColsOk raw (ColumnMapping.mk (some ai) (some ad) (some dd) (some st)
          loan income credit reason) = true →
       exceptIsOk (process_data_handler raw (some ai) (some ad) (some dd) (some st)
         loan income credit reason) = true) := by
  have hfindOf : ∀ (raw : RawTable) (m : ColumnMapping),
      (∀ pr ∈ m.mappedList, raw.cols.contains pr.2 = true) →
      m.mappedList.find? (fun p => !raw.cols.contains p.2) = none := by
    intro raw m h
    rw [List.find?_eq_none]
    intro x hx
    rw [h x hx]
    decide
  have hpre : ∀ (raw : RawTable) (m : ColumnMapping),
      (∀ pr ∈ m.mappedList, raw.cols.contains pr.2 = true) →
      dateColsOk raw m = true →
      preprocess_data raw m = Except.ok ⟨canonicalCols m, raw.rows.map (buildRow m)⟩ := by
    intro raw m h hok
    simp only [preprocess_data, hfindOf raw m h, hok, if_true]
  refine ⟨?_, hpre, ?_, ?_⟩
  · intro raw loan income credit reason ai ad dd st h
    cases ai <;> cases ad <;> cases dd <;> cases st <;>
      first
        | rfl
        | (rcases h with h | h | h | h <;> exact absurd h (by simp))
  · intro raw m h hbad
    simp only [preprocess_data, hfindOf raw m h, hbad, Bool.false_eq_true, if_false]
  · intro raw ai ad dd st loan income credit reason h hok
    simp only [process_data_handler]
    rw [hpre raw _ h hok]
    rfl

/-- C1, witness: the handler refuses when `status` is unmapped, and
`preprocess_data` succeeds on the same table under the
status-unmapped column mapping. -/
theorem C1_required_field_guard_witness :
    process_data_handler exDatesRaw (some ("id".data)) (some ("ad".data)) (some ("dd".data))
        none none none none none
      = Except.error mappingErrorMsg
    ∧ preprocess_data exDatesRaw exDatesMap
      = Except.ok ⟨canonicalCols exDatesMap, exDatesRaw.rows.map (buildRow exDatesMap)⟩ :=
  ⟨C1_required_field_guard.1 exDatesRaw none none none none (some ("id".data))
     (some ("ad".data)) (some ("dd".data)) none (Or.inr (Or.inr (Or.inr rfl))),
   C1_required_field_guard.2.1 exDatesRaw exDatesMap (by decide) (by decide)⟩

/-- C3: preprocessing preserves every row (no row is dropped), and the
`processing_time_days` value of a canonical row, when numeric, always
lies in [0, 365]; a difference that is negative or exceeds 365 days,
or a missing date on either side, produces the missing marker
instead. -/
theorem C3_processing_time_range (raw : RawTable) (m : ColumnMapping) (t : CanonicalTable)
    (h : preprocess_data raw m = Except.ok t) :
    t.rows.length = raw.rows.length
    ∧ (∀ r ∈ t.rows, ∀ q : ℚ, lookupCell r ptimeCol = some (Cell.num q) → 0 ≤ q ∧ q ≤ 365)
    ∧ (∀ a d : Int,
        (((d : ℚ) - (a : ℚ)) / 86400 < 0 ∨ ((d : ℚ) - (a : ℚ)) / 86400 > 365) →
        processing_time_cell (Cell.date a) (Cell.date d) = Cell.null)
    ∧ (∀ c : Cell, processing_time_cell Cell.null c = Cell.null
        ∧ processing_time_cell c Cell.null = Cell.null) := by
  simp only [preprocess_data] at h
  cases hf : m.mappedList.find? (fun p => !raw.cols.contains p.2) with
  | some x => rw [hf] at h; exact absurd h (by simp)
  | none =>
    rw [hf] at h
    by_cases hok : dateColsOk raw m = true
    case neg =>
      rw [if_neg hok] at h
      exact absurd h (by simp)
    rw [if_pos hok] at h
    cases h
    refine ⟨by simp, ?_, ?_, ?_⟩
    · intro r hr q hq
      obtain ⟨row, hrow, rfl⟩ := List.mem_map.mp hr
      rw [buildRow_ptime] at hq
      cases had : m.application_date with
      | none => rw [had] at hq; exact absurd hq (by simp)
      | some ca =>
        cases hdd : m.decision_date with
        | none => rw [had, hdd] at hq; exact absurd hq (by simp)
        | some cd =>
          rw [had, hdd] at hq
          simp only [Option.some.injEq] at hq
          exact processing_time_cell_range _ _ q hq
    · intro a d had
      simp only [processing_time_cell]
      rcases had with h1 | h2
      · rw [if_pos h1]
      · have hnn : ¬ (((d : ℚ) - (a : ℚ)) / 86400 < 0) := by linarith
        rw [if_neg hnn, if_pos h2]
    · intro c
      constructor <;> cases c <;> rfl

/-- C3, witness: the invariant at a concrete two-row table with both
date columns mapped and datetimelike. -/
theorem C3_processing_time_range_witness :
    exDatesTable.rows.length = exDatesRaw.rows.length
    ∧ (∀ r ∈ exDatesTable.rows, ∀ q : ℚ,
        lookupCell r ptimeCol = some (Cell.num q) → 0 ≤ q ∧ q ≤ 365)
    ∧ (∀ a d : Int,
        (((d : ℚ) - (a : ℚ)) / 86400 < 0 ∨ ((d : ℚ) - (a : ℚ)) / 86400 > 365) →
        processing_time_cell (Cell.date a) (Cell.date d) = Cell.null)
    ∧ (∀ c : Cell, processing_time_cell Cell.null c = Cell.null
        ∧ processing_time_cell c Cell.null = Cell.null) :=
  C3_processing_time_range exDatesRaw exDatesMap exDatesTable rfl

/-- C5: `get_approval_rate` never raises on a zero denominator — on an
empty canonical view it returns total 0, approved 0 and rate 0 (an
ordinary result, not an exception) — and every per-group row it
returns carries rate `approved/total` with a strictly positive total
(a zero-total row would get rate 0 by the same guard). -/
theorem C5_approval_rate_zero_guard :
    (∀ (p : DataProcessor) (t : CanonicalTable),
       p.data = some t → t.cols.contains statusStdCol = true → t.rows = [] →
       get_approval_rate p none none = Except.ok [⟨none, 0, 0, 0⟩])
    ∧ (∀ (p : DataProcessor) (gb tp : Option Str) (res : List ApprovalRow),
       get_approval_rate p gb tp = Except.ok res →
       ∀ row ∈ res,
         row.approval_rate
           = (if row.total_applications = 0 then 0
              else (row.approved : ℚ) / (row.total_applications : ℚ))
         ∧ (row.group.isSome = true → 0 < row.total_applications)) := by
  constructor
  · intro p t hp hc hrows
    have hg : approvalGrouper t none none = none := rfl
    simp only [get_approval_rate, hp]
    rw [if_pos hc, hg, hrows]
    rfl
  · intro p gb tp res h row hrow
    rcases hd : p.data with _ | t
    · simp only [get_approval_rate, hd] at h
      exact absurd h (by simp)
    · simp only [get_approval_rate, hd] at h
      by_cases hc : t.cols.contains statusStdCol = true
      · rw [if_pos hc] at h
        cases hg : approvalGrouper t gb tp with
        | none =>
          rw [hg] at h
          obtain rfl : res = [approvalOverall t.rows] := ((Except.ok.injEq _ _).mp h).symm
          rw [List.mem_singleton] at hrow
          subst hrow
          constructor
          · simp only [approvalOverall]
            by_cases h0 : t.rows.length = 0
            · rw [h0]; simp
            · rw [if_pos (Nat.pos_of_ne_zero h0), if_neg h0]
          · intro hgs
            simp [approvalOverall] at hgs
        | some pr =>
          rw [hg] at h
          obtain rfl : res = approvalGrouped pr.1 pr.2 := ((Except.ok.injEq _ _).mp h).symm
          simp only [approvalGrouped, List.mem_map] at hrow
          obtain ⟨g, hgmem, rfl⟩ := hrow
          have hpos := groupsOf_total_pos pr.1 pr.2 g hgmem
          constructor
          · simp only
            rw [if_neg (Nat.pos_iff_ne_zero.mp hpos)]
          · intro _
            exact hpos
      · rw [if_neg hc] at h
        exact absurd h (by simp)

/-- C5, witness: the empty canonical view returns the zero row, and
the per-row rate property holds of that result. -/
theorem C5_approval_rate_zero_guard_witness :
    get_approval_rate emptyViewProc none none = Except.ok [⟨none, 0, 0, 0⟩]
    ∧ ∀ row ∈ [(⟨none, 0, 0, 0⟩ : ApprovalRow)],
        row.approval_rate
          = (if row.total_applications = 0 then 0
             else (row.approved : ℚ) / (row.total_applications : ℚ))
        ∧ (row.group.isSome = true → 0 < row.total_applications) :=
  ⟨C5_approval_rate_zero_guard.1 emptyViewProc ⟨[statusStdCol], []⟩ rfl (by decide) rfl,
   C5_approval_rate_zero_guard.2 emptyViewProc none none [⟨none, 0, 0, 0⟩]
     (C5_approval_rate_zero_guard.1 emptyViewProc ⟨[statusStdCol], []⟩ rfl (by decide) rfl)⟩

/-- C7: `get_rejection_factors` returns one row per distinct reason
among rejected rows with a non-missing `rejection_reason`, carrying
that reason's frequency count and its (rounded) percentage of all
counted rejections, sorted descending by count and truncated to
`n_top`; it returns the empty table when there are no rejected rows or
the reason column is unmapped; and on six `Low Credit Score` plus four
`Other` rejections the top row is (`Low Credit Score`, 6, 60.0). -/
theorem C7_rejection_factors :
    (∀ (p : DataProcessor) (t : CanonicalTable) (n : Nat) (res : List RejRow),
       p.data = some t → get_rejection_factors p n = Except.ok res →
       res.length ≤ n
       ∧ List.Pairwise (fun a b => b.count ≤ a.count) res
       ∧ ∀ r ∈ res,
           r.count = (rejection_reason_values t).count r.reason
           ∧ r.percentage
             = round2 ((r.count : ℚ) / ((rejection_reason_values t).length : ℚ) * 100))
    ∧ (∀ (p : DataProcessor) (t : CanonicalTable) (n : Nat),
       p.data = some t → t.cols.contains statusStdCol = true →
       (∀ r ∈ t.rows, getCellD r statusStdCol ≠ Cell.str ("rejected".data)) →
       get_rejection_factors p n = Except.ok [])
    ∧ (∀ (p : DataProcessor) (t : CanonicalTable) (n : Nat),
       p.data = some t → t.cols.contains statusStdCol = true →
       t.cols.contains reasonCol = false →
       get_rejection_factors p n = Except.ok [])
    ∧ get_rejection_factors exRejProc 10
        = Except.ok [⟨Cell.str ("Low Credit Score".data), 6, 60⟩,
                     ⟨Cell.str ("Other".data), 4, 40⟩] := by
  refine ⟨?_, ?_, ?_, ?_⟩
  · intro p t n res hp h
    simp only [get_rejection_factors, hp] at h
    cases hcs : t.cols.contains statusStdCol with
    | false =>
      rw [hcs] at h
      simp at h
    | true =>
      rw [hcs] at h
      simp only [Bool.not_true, Bool.false_eq_true, if_false] at h
      by_cases hcr : t.cols.contains reasonCol = true
      · rw [if_pos hcr] at h
        obtain rfl : res = (sortRejDesc (rejectionCounts t)).take n :=
          ((Except.ok.injEq _ _).mp h).symm
        refine ⟨?_, ?_, ?_⟩
        · rw [List.length_take]
          exact min_le_left _ _
        · exact (sortRejDesc_pairwise _).sublist (List.take_sublist _ _)
        · intro r hr
          have hr2 : r ∈ sortRejDesc (rejectionCounts t) :=
            (List.take_sublist _ _).subset hr
          have hr3 : r ∈ rejectionCounts t := mem_sortRejDesc.mp hr2
          simp only [rejectionCounts, List.mem_map] at hr3
          obtain ⟨k, hk, rfl⟩ := hr3
          exact ⟨rfl, rfl⟩
      · rw [if_neg hcr] at h
        obtain rfl : res = [] := ((Except.ok.injEq _ _).mp h).symm
        exact ⟨Nat.zero_le n, List.Pairwise.nil, by simp⟩
  · intro p t n hp hcs hno
    have hrej : rejectedRows t = [] := by
      rw [rejectedRows, List.filter_eq_nil_iff]
      intro r hr
      rw [beq_cell_decide]
      simp only [decide_eq_true_eq]
      exact hno r hr
    have hvals : rejection_reason_values t = [] := by
      rw [rejection_reason_values, hrej]
      rfl
    have hcnt : rejectionCounts t = [] := by
      simp only [rejectionCounts, hvals]
      rfl
    simp only [get_rejection_factors, hp, hcs, Bool.not_true, Bool.false_eq_true, if_false]
    by_cases hcr : t.cols.contains reasonCol = true
    · rw [if_pos hcr, hcnt]
      simp [sortRejDesc]
    · rw [if_neg hcr]
  · intro p t n hp hcs hcr
    simp only [get_rejection_factors, hp, hcs, hcr, Bool.not_true, Bool.false_eq_true,
      if_false]
  · simp +decide [get_rejection_factors, exRejProc, exRejTable, rejRow, round2,
      rejectionCounts, rejection_reason_values, rejectedRows, dedupCells, dedupAux,
      sortRejDesc, insertRejDesc, List.replicate, List.filter, List.map,
      List.count_cons, getCellD, lookupCell, beq_cell_decide, bne_cell_decide, beq_str_decide]
    norm_num [round_ofNat]

/-- C7, witness: the structural properties instantiated at the
ten-rejection fixture, with the evaluated result as the success
hypothesis. -/
theorem C7_rejection_factors_witness :
    ([⟨Cell.str ("Low Credit Score".data), 6, 60⟩,
      ⟨Cell.str ("Other".data), 4, 40⟩] : List RejRow).length ≤ 10
    ∧ List.Pairwise (fun a b => b.count ≤ a.count)
        ([⟨Cell.str ("Low Credit Score".data), 6, 60⟩,
          ⟨Cell.str ("Other".data), 4, 40⟩] : List RejRow)
    ∧ ∀ r ∈ ([⟨Cell.str ("Low Credit Score".data), 6, 60⟩,
          ⟨Cell.str ("Other".data), 4, 40⟩] : List RejRow),
        r.count = (rejection_reason_values exRejTable).count r.reason
        ∧ r.percentage
          = round2 ((r.count : ℚ) / ((rejection_reason_values exRejTable).length : ℚ) * 100) :=
  C7_rejection_factors.1 exRejProc exRejTable 10 _ rfl C7_rejection_factors.2.2.2

theorem findSome?_some_exists {α β : Type} {f : α → Option β} {l : List α} {b : β}
    (h : l.findSome? f = some b) : ∃ a ∈ l, f a = some b := by
  induction l with
  | nil => simp [List.findSome?] at h
  | cons x xs ih =>
    rw [List.findSome?_cons] at h
    cases hf : f x with
    | some v =>
      rw [hf] at h
      exact ⟨x, List.mem_cons_self _ _, hf.trans h⟩
    | none =>
      rw [hf] at h
      obtain ⟨a, ha, hfa⟩ := ih h
      exact ⟨a, List.mem_cons_of_mem _ ha, hfa⟩

theorem contains_iff_mem_str (cs : List Str) (n : Str) : cs.contains n = true ↔ n ∈ cs :=
  List.elem_iff

theorem suggestExact_eq_none_iff (cs ns : List Str) :
    suggestExact cs ns = none ↔ ¬ exactMatches cs ns := by
  rw [suggestExact, List.findSome?_eq_none_iff]
  unfold exactMatches
  constructor
  · rintro h ⟨n, hn, hmem⟩
    have h2 := h n hn
    rw [if_pos ((contains_iff_mem_str cs n).mpr hmem)] at h2
    exact absurd h2 (by simp)
  · intro h n hn
    by_cases hm : n ∈ cs
    · exact absurd ⟨n, hn, hm⟩ h
    · rw [if_neg (fun hc => hm ((contains_iff_mem_str cs n).mp hc))]

theorem suggestCI_eq_none_iff (cs ns : List Str) :
    suggestCI cs ns = none ↔ ¬ ciMatches cs ns := by
  rw [suggestCI, List.findSome?_eq_none_iff]
  unfold ciMatches
  constructor
  · rintro h ⟨n, hn, c, hc, heq⟩
    have h2 := h n hn
    rw [List.findSome?_eq_none_iff] at h2
    have h3 := h2 c hc
    rw [if_pos heq] at h3
    exact absurd h3 (by simp)
  · intro h n hn
    rw [List.findSome?_eq_none_iff]
    intro c hc
    by_cases heq : lowerStr n = lowerStr c
    · exact absurd ⟨n, hn, c, hc, heq⟩ h
    · rw [if_neg heq]

theorem suggestSub_eq_none_iff (cs ns : List Str) :
    suggestSub cs ns = none ↔ ¬ subMatches cs ns := by
  rw [suggestSub, List.findSome?_eq_none_iff]
  unfold subMatches
  constructor
  · rintro h ⟨n, hn, c, hc, heq⟩
    have h2 := h n hn
    rw [List.findSome?_eq_none_iff] at h2
    have h3 := h2 c hc
    have hcond : (isInfixOfL (lowerStr n) (lowerStr c)
        || isInfixOfL (lowerStr c) (lowerStr n)) = true := by
      rcases heq with heq | heq
      · rw [(isInfixOfL_iff _ _).mpr heq, Bool.true_or]
      · rw [(isInfixOfL_iff _ _).mpr heq, Bool.or_true]
    rw [if_pos hcond] at h3
    exact absurd h3 (by simp)
  · intro h n hn
    rw [List.findSome?_eq_none_iff]
    intro c hc
    by_cases hcond : (isInfixOfL (lowerStr n) (lowerStr c)
        || isInfixOfL (lowerStr c) (lowerStr n)) = true
    · rcases Bool.or_eq_true .. ▸ hcond with hx | hx
      · exact absurd ⟨n, hn, c, hc, Or.inl ((isInfixOfL_iff _ _).mp hx)⟩ h
      · exact absurd ⟨n, hn, c, hc, Or.inr ((isInfixOfL_iff _ _).mp hx)⟩ h
    · rw [if_neg hcond]

theorem suggestExact_eq_some (cs ns : List Str) (i : Nat) (h : suggestExact cs ns = some i) :
    ∃ n ∈ ns, n ∈ cs ∧ i = idxOfStr cs n + 1 := by
  obtain ⟨n, hn, hfn⟩ := findSome?_some_exists h
  by_cases hc : cs.contains n = true
  · rw [if_pos hc] at hfn
    exact ⟨n, hn, (contains_iff_mem_str cs n).mp hc, ((Option.some.injEq _ _).mp hfn).symm⟩
  · rw [if_neg hc] at hfn
    exact absurd hfn (by simp)

theorem suggestCI_eq_some (cs ns : List Str) (i : Nat) (h : suggestCI cs ns = some i) :
    ∃ n ∈ ns, ∃ c ∈ cs, lowerStr n = lowerStr c ∧ i = idxOfStr cs c + 1 := by
  obtain ⟨n, hn, hfn⟩ := findSome?_some_exists h
  obtain ⟨c, hc, hfc⟩ := findSome?_some_exists hfn
  by_cases heq : lowerStr n = lowerStr c
  · rw [if_pos heq] at hfc
    exact ⟨n, hn, c, hc, heq, ((Option.some.injEq _ _).mp hfc).symm⟩
  · rw [if_neg heq] at hfc
    exact absurd hfc (by simp)

theorem suggestSub_eq_some (cs ns : List Str) (i : Nat) (h : suggestSub cs ns = some i) :
    ∃ n ∈ ns, ∃ c ∈ cs,
      (lowerStr n <:+: lowerStr c ∨ lowerStr c <:+: lowerStr n)
      ∧ i = idxOfStr cs c + 1 := by
  obtain ⟨n, hn, hfn⟩ := findSome?_some_exists h
  obtain ⟨c, hc, hfc⟩ := findSome?_some_exists hfn
  by_cases hcond : (isInfixOfL (lowerStr n) (lowerStr c)
      || isInfixOfL (lowerStr c) (lowerStr n)) = true
  · rw [if_pos hcond] at hfc
    refine ⟨n, hn, c, hc, ?_, ((Option.some.injEq _ _).mp hfc).symm⟩
    rcases Bool.or_eq_true .. ▸ hcond with hx | hx
    · exact Or.inl ((isInfixOfL_iff _ _).mp hx)
    · exact Or.inr ((isInfixOfL_iff _ _).mp hx)
  · rw [if_neg hcond] at hfc
    exact absurd hfc (by simp)

/-- C8: `suggest_column` resolves its pattern list in strict priority
order — exact match, then case-insensitive exact match, then
case-insensitive substring containment in either direction — with the
first hit winning inside each stage, and returns the explicit
no-match result 0 exactly when no heuristic matches; on the columns
`[Application_ID, App Date, decision_date, Status]` and patterns
`[application_id, loan_id, id]` it resolves to `Application_ID`
(1-based index 1) via the case-insensitive stage, the exact stage
having no hit. -/
theorem C8_suggest_column_priority :
    (∀ columns names : List Str,
       suggest_column columns names = 0 ↔
         ¬(exactMatches columns names ∨ ciMatches columns names ∨ subMatches columns names))
    ∧ (∀ columns names : List Str, exactMatches columns names →
        ∃ n ∈ names, n ∈ columns ∧ suggest_column columns names = idxOfStr columns n + 1)
    ∧ (∀ columns names : List Str, ¬ exactMatches columns names → ciMatches columns names →
        ∃ n ∈ names, ∃ c ∈ columns, lowerStr n = lowerStr c
          ∧ suggest_column columns names = idxOfStr columns c + 1)
    ∧ (∀ columns names : List Str, ¬ exactMatches columns names → ¬ ciMatches columns names →
        subMatches columns names →
        ∃ n ∈ names, ∃ c ∈ columns,
          (lowerStr n <:+: lowerStr c ∨ lowerStr c <:+: lowerStr n)
          ∧ suggest_column columns names = idxOfStr columns c + 1)
    ∧ (¬ exactMatches exCols exNames ∧ ciMatches exCols exNames
       ∧ suggest_column exCols exNames = 1
       ∧ idxOfStr exCols ("Application_ID".data) = 0) := by
  refine ⟨?_, ?_, ?_, ?_, by decide, by decide, by decide, by decide⟩
  · intro cs ns
    simp only [suggest_column]
    cases h1 : suggestExact cs ns with
    | some i =>
      obtain ⟨n, hn, hmem, rfl⟩ := suggestExact_eq_some cs ns i h1
      constructor
      · intro h0
        exact absurd h0 (Nat.succ_ne_zero _)
      · intro hno
        exact absurd (Or.inl ⟨n, hn, hmem⟩) hno
    | none =>
      cases h2 : suggestCI cs ns with
      | some i =>
        obtain ⟨n, hn, c, hc, heq, rfl⟩ := suggestCI_eq_some cs ns i h2
        constructor
        · intro h0
          exact absurd h0 (Nat.succ_ne_zero _)
        · intro hno
          exact absurd (Or.inr (Or.inl ⟨n, hn, c, hc, heq⟩)) hno
      | none =>
        cases h3 : suggestSub cs ns with
        | some i =>
          obtain ⟨n, hn, c, hc, heq, rfl⟩ := suggestSub_eq_some cs ns i h3
          constructor
          · intro h0
            exact absurd h0 (Nat.succ_ne_zero _)
          · intro hno
            exact absurd (Or.inr (Or.inr ⟨n, hn, c, hc, heq⟩)) hno
        | none =>
          refine iff_of_true rfl ?_
          rintro (hEx | hCi | hSub)
          · exact (suggestExact_eq_none_iff cs ns).mp h1 hEx
          · exact (suggestCI_eq_none_iff cs ns).mp h2 hCi
          · exact (suggestSub_eq_none_iff cs ns).mp h3 hSub
  · intro cs ns hEx
    simp only [suggest_column]
    cases h1 : suggestExact cs ns with
    | none => exact absurd hEx ((suggestExact_eq_none_iff cs ns).mp h1)
    | some i =>
      obtain ⟨n, hn, hmem, rfl⟩ := suggestExact_eq_some cs ns i h1
      exact ⟨n, hn, hmem, rfl⟩
  · intro cs ns hnEx hCi
    simp only [suggest_column]
    rw [(suggestExact_eq_none_iff cs ns).mpr hnEx]
    cases h2 : suggestCI cs ns with
    | none => exact absurd hCi ((suggestCI_eq_none_iff cs ns).mp h2)
    | some i =>
      obtain ⟨n, hn, c, hc, heq, rfl⟩ := suggestCI_eq_some cs ns i h2
      exact ⟨n, hn, c, hc, heq, rfl⟩
  · intro cs ns hnEx hnCi hSub
    simp only [suggest_column]
    rw [(suggestExact_eq_none_iff cs ns).mpr hnEx, (suggestCI_eq_none_iff cs ns).mpr hnCi]
    cases h3 : suggestSub cs ns with
    | none => exact absurd hSub ((suggestSub_eq_none_iff cs ns).mp h3)
    | some i =>
      obtain ⟨n, hn, c, hc, heq, rfl⟩ := suggestSub_eq_some cs ns i h3
      exact ⟨n, hn, c, hc, heq, rfl⟩

/-- C8, witness: the case-insensitive branch applied at the concrete
fixture. -/
theorem C8_suggest_column_priority_witness :
    ∃ n ∈ exNames, ∃ c ∈ exCols, lowerStr n = lowerStr c
      ∧ suggest_column exCols exNames = idxOfStr exCols c + 1 :=
  C8_suggest_column_priority.2.2.1 exCols exNames (by decide) (by decide)
